import Mathlib

/- Verification development for the permutation/bootstrap conditional-independence
   test implemented in chaluptests/methods/cond_mixnn.py.

   Embedding conventions: numpy 1-D arrays become `List ℚ`, 2-D arrays become
   `List (List ℚ)` (a list of rows).  numpy's random draws are passed in
   explicitly: `np.random.choice` is modelled by a stream of index draws
   `rand : ℕ → ℕ → ℕ` (replicate number, position), and
   `np.random.permutation` by a stream of index lists.  The external
   collaborators (the neural-net oracle from the `neural_networks` package and
   scipy's `ttest_1samp`) are parameters of the embedding, since their code is
   not part of this repository. -/

namespace CondMixnn

/-- Number of columns of a 2-D array (numpy `shape[1]`); all rows of a
well-formed array share this length, so length of the first row is used. -/
def ncols (m : List (List ℚ)) : ℕ := (m.headD []).length

/-- numpy `np.mean` of a 1-D array: sum divided by length.  On the empty array
this is 0 (ℚ division by zero), where numpy would produce NaN. -/
def npMean (l : List ℚ) : ℚ := l.sum / l.length

/-- numpy `np.min` of a 1-D array (junk value 0 on the empty array, where
numpy raises). -/
def npMin : List ℚ → ℚ
  | [] => 0
  | a :: t => t.foldl min a

/-- numpy `np.var` of a 1-D array: mean of the squared deviations from the
mean. -/
def npVar (l : List ℚ) : ℚ := npMean (l.map (fun a => (a - npMean l) ^ 2))

/-- Elementwise quotient of two equal-length arrays (numpy `d0s / d1s`). -/
def zipDiv (a b : List ℚ) : List ℚ := a.zipWith (fun u v => u / v) b

/-- mse(y_pred, y) from cond_mixnn.py: `np.mean((y - y_pred)**2)`, the mean of
all squared entry differences (numpy's mean flattens a 2-D array). -/
def mse (y_pred y : List (List ℚ)) : ℚ :=
  npMean ((y.zipWith (fun yr pr => yr.zipWith (fun a b => (a - b) ^ 2) pr) y_pred).flatten)

/-- bootstrap(h0, h1, f, B) from cond_mixnn.py.  The pool is `h0 ++ h1`
(numpy `np.concatenate`); `np.random.choice(all_h, size=m+n, replace=True)` is
modelled by the index stream `rand`: in replicate `b_id`, position `i` draws
pool element `rand b_id i % (m + n)`.  Each replicate applies `f` to the first
`m` and the remaining `n` drawn elements. -/
def bootstrap (h0 h1 : List ℚ) (f : List ℚ → List ℚ → ℚ) (B : ℕ)
    (rand : ℕ → ℕ → ℕ) : List ℚ :=
  let m := h0.length
  let n := h1.length
  let all_h := h0 ++ h1
  (List.range B).map (fun b_id =>
    let b_data := (List.range (m + n)).map (fun i => all_h.getD (rand b_id i % (m + n)) 0)
    f (b_data.take m) (b_data.drop m))

/-- bootstrap_mindiv(d0s, d1s) from cond_mixnn.py: observed statistic
`min(d0s)/min(d1s)`, reference distribution from `bootstrap` with the same
statistic and the default B = 10000, p-value the fraction of replicates
strictly exceeding the observed statistic. -/
def bootstrap_mindiv (rand : ℕ → ℕ → ℕ) (d0s d1s : List ℚ) : ℚ :=
  let f := fun x y => npMin x / npMin y
  let t_obs := f d0s d1s
  let t_star := bootstrap d0s d1s f 10000 rand
  (t_star.countP (fun t => decide (t_obs < t)) : ℚ) / (t_star.length : ℚ)

/-- bootstrap_mindiff(d0s, d1s) from cond_mixnn.py: same as bootstrap_mindiv
but with the statistic `min(d0s) - min(d1s)`. -/
def bootstrap_mindiff (rand : ℕ → ℕ → ℕ) (d0s d1s : List ℚ) : ℚ :=
  let f := fun x y => npMin x - npMin y
  let t_obs := f d0s d1s
  let t_star := bootstrap d0s d1s f 10000 rand
  (t_star.countP (fun t => decide (t_obs < t)) : ℚ) / (t_star.length : ℚ)

/-- bootstrap_ttest(d0s, d1s) from cond_mixnn.py.  `ttest_p` models the
two-sided p-value returned by scipy's `ttest_1samp(d0s / d1s, 1)` (scipy is an
external library; its documented contract is that this p-value lies in
[0, 1]).  The code halves it when the mean ratio exceeds 1 and otherwise
returns one minus the half. -/
def bootstrap_ttest (ttest_p : List ℚ → ℚ) (d0s d1s : List ℚ) : ℚ :=
  let ratios := zipDiv d0s d1s
  let p_value := ttest_p ratios
  if 1 < npMean ratios then p_value / 2 else 1 - p_value / 2

/-- Reorder the first `l.length` positions of `l` through the index map `p`:
element `i` of the result is element `p i` of `l`.  When `p` is a permutation
of `{0, …, l.length − 1}` this is a permutation of `l`. -/
def permuteBy (p : ℕ → ℕ) (l : List ℚ) : List ℚ :=
  (List.range l.length).map (fun i => l.getD (p i) 0)

/-- Values that can sit in the Python keyword-argument dictionary that test()
forwards to the neural-net constructor and to fit. -/
inductive PVal where
  | nat (n : ℕ)
  | rat (q : ℚ)
  | bool (b : Bool)
  | str (s : String)
  | natList (l : List ℕ)
deriving DecidableEq

/-- Python dictionary assignment `d[k] = v`: replace the binding of `k` in
place when present, otherwise append it at the end (Python dicts preserve
insertion order). -/
def setKey (k : String) (v : PVal) : List (String × PVal) → List (String × PVal)
  | [] => [(k, v)]
  | (k', v') :: rest => if k' = k then (k, v) :: rest else (k', v') :: setKey k v rest

/-- Python dictionary lookup `d[k]` (none models a KeyError). -/
def lookupKey (k : String) : List (String × PVal) → Option PVal
  | [] => none
  | (k', v') :: rest => if k' = k then some v' else lookupKey k rest

/-- numpy `np.hstack([a, b])` on two 2-D arrays with equal row counts: rows
concatenated pairwise. -/
def hstack (a b : List (List ℚ)) : List (List ℚ) := a.zipWith (· ++ ·) b

/-- numpy fancy row indexing `x[perm]`: row `i` of the result is row `perm i`
of `x`. -/
def applyPerm (perm : List ℕ) (x : List (List ℚ)) : List (List ℚ) :=
  perm.map (fun i => x.getD i [])

/-- Column duplication: every row replaced by `k` copies of itself joined end
to end. -/
def dupCols (k : ℕ) (v : List (List ℚ)) : List (List ℚ) :=
  v.map (fun row => (List.replicate k row).flatten)

/-- Modelled from the spec: `equalize_dimensions` is defined in
`chaluptests/utils.py`, which is not among the provided source files (only
its import in cond_mixnn.py is).  Per the spec it is a pure function: "returns
x', y', z' with column counts mutually compatible for concatenation-based
conditioning (duplicating or padding lower-dimensional variables as needed)";
the call site's comment describes adjusting "the dimensionalities of x, y, z
to be on the same order, by simple data duplication".  Modelled as duplicating
each variable's columns enough times to reach the order of the widest
variable, preserving the rows and their order. -/
def equalize_dimensions (x y z : List (List ℚ)) :
    List (List ℚ) × List (List ℚ) × List (List ℚ) :=
  let d := max (ncols x) (max (ncols y) (ncols z))
  (dupCols (max 1 (d / max 1 (ncols x))) x,
   dupCols (max 1 (d / max 1 (ncols y))) y,
   dupCols (max 1 (d / max 1 (ncols z))) z)

/-- Variable-role selection at the top of test(): when x is flagged discrete
and y is not (`discrete[0] and not discrete[1]`), swap so the continuous y
becomes the regression input; otherwise, when x has strictly fewer columns
than y, swap so the wider y becomes the input. -/
def selectRoles (discrete : Bool × Bool) (x y : List (List ℚ)) :
    List (List ℚ) × List (List ℚ) :=
  if discrete.1 && !discrete.2 then (y, x)
  else if ncols x < ncols y then (y, x)
  else (x, y)

/-- State of a Tensorflow session running the oracle: the oracle's current
parameter values (of an abstract type `P`, since the `neural_networks`
package is external) and the checkpoint written by `saver.save` (`none`
before the first save). -/
structure SessState (P : Type) where
  params : P
  ckpt : Option P

/-- `sess.run(tf.global_variables_initializer())`: overwrite the parameters
with a fresh random initialization drawn from the caller's random state. -/
def runInitializer {P : Type} (fresh : P) (s : SessState P) : SessState P :=
  { s with params := fresh }

/-- `clf.saver.save(sess, './init_nn_save')`: checkpoint the current
parameters. -/
def saverSave {P : Type} (s : SessState P) : SessState P :=
  { s with ckpt := some s.params }

/-- `clf.saver.restore(sess, './init_nn_save')`: overwrite the parameters
with the checkpoint (junk: keep the current parameters when nothing was ever
saved, where Tensorflow would raise). -/
def saverRestore {P : Type} (s : SessState P) : SessState P :=
  { s with params := s.ckpt.getD s.params }

/-- `clf.fit(inputs, targets, sess=sess, **kwargs)`: the oracle's training,
abstracted as a caller-supplied function `fitF` of the starting parameters
and the training data (the oracle is an external collaborator). -/
def clfFit {P : Type} (fitF : P → List (List ℚ) → List (List ℚ) → P)
    (inputs targets : List (List ℚ)) (s : SessState P) : SessState P :=
  { s with params := fitF s.params inputs targets }

/-- `clf.predict(inputs, sess=sess)`: the oracle's prediction, abstracted as
a caller-supplied function `predF` of the parameters and the inputs. -/
def clfPredict {P : Type} (predF : P → List (List ℚ) → List (List ℚ))
    (inputs : List (List ℚ)) (s : SessState P) : List (List ℚ) :=
  predF s.params inputs

/-- Observable outcome of one trial (one iteration of the loop of test()):
the reshuffled dataset, the oracle parameters at the start of each of the
two fits, the two predictions, and the two MSE statistics. -/
structure TrialResult (P : Type) where
  x_z_bootstrap : List (List ℚ)
  fit0_start : P
  fit1_start : P
  y_pred0 : List (List ℚ)
  y_pred1 : List (List ℚ)
  d0_stat : ℚ
  d1_stat : ℚ

/-- One iteration of the trial loop of test(), transcribing the session block
line by line: build the reshuffled input from the permuted x and the
unpermuted z; initialize, checkpoint, fit on the reshuffled training rows and
predict on the held-out rows; re-initialize, restore the checkpoint, fit on
the original training rows and predict; reduce both predictions to MSE
statistics against the first `n_test` rows of y.  `init0`/`init1` are the two
initializer draws of the trial; the session's parameters before the first
initializer run are never read, so `init0` doubles as the junk start value. -/
def runTrial {P : Type} (fitF : P → List (List ℚ) → List (List ℚ) → P)
    (predF : P → List (List ℚ) → List (List ℚ)) (init0 init1 : P)
    (x z y : List (List ℚ)) (perm : List ℕ) (n_test : ℕ) : TrialResult P :=
  let x_z := hstack x z
  let x_z_bootstrap := hstack (applyPerm perm x) z
  let s0 : SessState P := { params := init0, ckpt := none }
  let s1 := runInitializer init0 s0
  let s2 := saverSave s1
  let s3 := clfFit fitF (x_z_bootstrap.drop n_test) (y.drop n_test) s2
  let y_pred0 := clfPredict predF (x_z_bootstrap.take n_test) s3
  let s4 := runInitializer init1 s3
  let s5 := saverRestore s4
  let s6 := clfFit fitF (x_z.drop n_test) (y.drop n_test) s5
  let y_pred1 := clfPredict predF (x_z.take n_test) s6
  { x_z_bootstrap := x_z_bootstrap
    fit0_start := s2.params
    fit1_start := s5.params
    y_pred0 := y_pred0
    y_pred1 := y_pred1
    d0_stat := mse y_pred0 (y.take n_test)
    d1_stat := mse y_pred1 (y.take n_test) }

/-- Arguments received by one call of the neural-net constructor `nn.NN`
(from the external `neural_networks` package): the input and output
dimensions and the keyword-argument bag. -/
structure NNArgs where
  x_dim : ℕ
  y_dim : ℕ
  kwargs : List (String × PVal)
deriving DecidableEq

/-- The trial loop of test(), one recursive step per `perm_id`.  Threads the
(Python-side mutable) kwargs dictionary through the iterations: when
`fixed_arch` is false, each iteration first overwrites `kwargs['arch']` with
`[32] * (perm_id + 1)` and constructs a fresh `nn.NN(x_dim, y_dim, **kwargs)`.
Records, in order, the per-trial results and the constructor calls made
inside the loop, and returns the final kwargs as well. -/
def trialsLoop {P : Type} (fitF : P → List (List ℚ) → List (List ℚ) → P)
    (predF : P → List (List ℚ) → List (List ℚ)) (initStream : ℕ → P)
    (permStream : ℕ → List ℕ) (x z y : List (List ℚ)) (n_test : ℕ)
    (fixed_arch : Bool) (xz_dim y_dim : ℕ) :
    List ℕ → List (String × PVal) →
      List (TrialResult P) × List NNArgs × List (String × PVal)
  | [], kw => ([], [], kw)
  | perm_id :: rest, kw =>
    let kw1 := if fixed_arch then kw
      else setKey "arch" (PVal.natList (List.replicate (perm_id + 1) 32)) kw
    let ctors_here : List NNArgs :=
      if fixed_arch then [] else [⟨xz_dim, y_dim, kw1⟩]
    let tr := runTrial fitF predF (initStream (2 * perm_id))
      (initStream (2 * perm_id + 1)) x z y (permStream perm_id) n_test
    let res := trialsLoop fitF predF initStream permStream x z y n_test
      fixed_arch xz_dim y_dim rest kw1
    (tr :: res.1, ctors_here ++ res.2.1, res.2.2)

/-- Observable outcome of test(): the per-trial results in order, the nn.NN
constructor calls in order, the two statistic sequences, and the final
p-value, where `none` models the KeyError raised by the
`globals()['bootstrap_' + bootstrap_type]` lookup on an unknown key. -/
structure TestOutcome (P : Type) where
  trace : List (TrialResult P)
  ctorCalls : List NNArgs
  d0_stats : List ℚ
  d1_stats : List ℚ
  result : Option ℚ

/-- Number of trials that actually ran in an outcome of test(). -/
def TestOutcome.trialsRun {P : Type} (o : TestOutcome P) : ℕ := o.trace.length

/-- The test(x, y, z, ...) driver of cond_mixnn.py.  Beyond the Python
arguments, the embedding takes the oracle behaviour (`fitF`, `predF`), the
random sources (`initStream` for the initializer draws, two per trial;
`permStream` for `np.random.permutation(n_samples)`; `rand` for
`np.random.choice` inside bootstrap) and scipy's `ttest_1samp` two-sided
p-value `ttest_p`.  `max_time` and `test_type` are accepted exactly as in the
source, which never reads either. -/
def testModel {P : Type} (fitF : P → List (List ℚ) → List (List ℚ) → P)
    (predF : P → List (List ℚ) → List (List ℚ)) (initStream : ℕ → P)
    (permStream : ℕ → List ℕ) (rand : ℕ → ℕ → ℕ) (ttest_p : List ℚ → ℚ)
    (x y z : List (List ℚ)) (num_perm : ℕ) (prop_test : ℚ) (max_time : ℚ)
    (discrete : Bool × Bool) (test_type : String) (fixed_arch : Bool)
    (bootstrap_type : String) (kwargs : List (String × PVal)) : TestOutcome P :=
  let xy := selectRoles discrete x y
  let x := xy.1
  let y := xy.2
  let xyz := equalize_dimensions x y z
  let x := xyz.1
  let y := xyz.2.1
  let z := xyz.2.2
  let n_samples := x.length
  let n_test := (Int.floor ((n_samples : ℚ) * prop_test)).toNat
  let x_z := hstack x z
  let kw := setKey "epochs" (PVal.nat 1000) kwargs
  let kw := setKey "lr" (PVal.rat (1 / 100)) kw
  let kw := setKey "nn_verbose" (PVal.bool true) kw
  let kw := setKey "batch_size" (PVal.nat 128) kw
  let kw := setKey "ntype" (PVal.str "plain") kw
  let ctors0 : List NNArgs :=
    if fixed_arch then
      [⟨ncols x_z, ncols y,
        [("arch", PVal.natList (List.replicate 2 128)), ("ntype", PVal.str "plain")]⟩]
    else []
  let res := trialsLoop fitF predF initStream permStream x z y n_test
    fixed_arch (ncols x_z) (ncols y) (List.range num_perm) kw
  let d0_stats := res.1.map (fun t => t.d0_stat)
  let d1_stats := res.1.map (fun t => t.d1_stat)
  let result : Option ℚ :=
    if bootstrap_type = "mindiv" then some (bootstrap_mindiv rand d0_stats d1_stats)
    else if bootstrap_type = "mindiff" then some (bootstrap_mindiff rand d0_stats d1_stats)
    else if bootstrap_type = "ttest" then some (bootstrap_ttest ttest_p d0_stats d1_stats)
    else none
  { trace := res.1
    ctorCalls := ctors0 ++ res.2.1
    d0_stats := d0_stats
    d1_stats := d1_stats
    result := result }

/- ------------------------------------------------------------------ -/
/- Theorems.                                                           -/
/- ------------------------------------------------------------------ -/

theorem row_sq_self_sum (r : List ℚ) :
    (r.zipWith (fun a b => (a - b) ^ 2) r).sum = 0 := by
  induction r with
  | nil => rfl
  | cons a t ih => simp [ih]

theorem mat_sq_self_sum (y : List (List ℚ)) :
    (y.zipWith (fun yr pr => yr.zipWith (fun a b => (a - b) ^ 2) pr) y).flatten.sum = 0 := by
  induction y with
  | nil => rfl
  | cons r t ih =>
    simp only [List.zipWith_cons_cons, List.flatten_cons, List.sum_append]
    rw [row_sq_self_sum, ih, add_zero]

theorem row_const_sq (r : List ℚ) (c : ℚ) :
    r.zipWith (fun a b => (a - b) ^ 2) (r.map (fun _ => c))
      = r.map (fun a => (a - c) ^ 2) := by
  induction r with
  | nil => rfl
  | cons a t ih =>
    simp only [List.map_cons, List.zipWith_cons_cons, ih]

theorem mat_const_sq (y : List (List ℚ)) (c : ℚ) :
    y.zipWith (fun yr pr => yr.zipWith (fun a b => (a - b) ^ 2) pr)
        (y.map (fun r => r.map (fun _ => c)))
      = y.map (fun r => r.map (fun a => (a - c) ^ 2)) := by
  induction y with
  | nil => rfl
  | cons r t ih =>
    simp only [List.map_cons, List.zipWith_cons_cons, ih, row_const_sq]

theorem sum_map_sub_sq (l : List ℚ) (c : ℚ) :
    (l.map (fun a => (a - c) ^ 2)).sum
      = (l.map (fun a => a ^ 2)).sum - 2 * c * l.sum + l.length * c ^ 2 := by
  induction l with
  | nil => simp
  | cons a t ih =>
    simp only [List.map_cons, List.sum_cons, ih, List.length_cons]
    push_cast
    ring

/-- C5 (amended): mse(y_pred, y) returns 0 whenever y_pred equals y exactly;
and for a constant y_pred with every entry c (of the same shape as y) and a
nonempty zero-mean y, mse(y_pred, y) returns the variance of y plus c², so it
equals the variance exactly when the constant is 0. -/
theorem mse_self_and_const (y : List (List ℚ)) (c : ℚ)
    (hne : y.flatten ≠ []) (hmean : npMean y.flatten = 0) :
    mse y y = 0 ∧
    mse (y.map (fun r => r.map (fun _ => c))) y = npVar y.flatten + c ^ 2 := by
  have hn0 : y.flatten.length ≠ 0 := by
    intro h
    exact hne (List.length_eq_zero.mp h)
  have hn : ((y.flatten.length : ℚ)) ≠ 0 := Nat.cast_ne_zero.mpr hn0
  have hsum : y.flatten.sum = 0 := by
    rcases div_eq_zero_iff.mp hmean with h | h
    · exact h
    · exact absurd h hn
  constructor
  · unfold mse npMean
    rw [mat_sq_self_sum, zero_div]
  · unfold mse npMean
    rw [mat_const_sq]
    rw [show (y.map (fun r => r.map (fun a => (a - c) ^ 2))).flatten
          = y.flatten.map (fun a => (a - c) ^ 2) from (List.map_flatten _ _).symm]
    have hvar : npVar y.flatten = (y.flatten.map (fun a => a ^ 2)).sum / y.flatten.length := by
      simp only [npVar, hmean, sub_zero]
      unfold npMean
      rw [List.length_map]
    rw [hvar, sum_map_sub_sq, hsum, List.length_map]
    rw [mul_zero, sub_zero, add_div]
    congr 1
    rw [mul_comm ((y.flatten.length : ℚ)) (c ^ 2), mul_div_assoc, div_self hn, mul_one]

/-- C5 counterexample: with the constant y_pred = [[1],[1]] and the zero-mean
y = [[1],[−1]], mse returns 2 while the variance of y is 1, refuting the
claim that mse returns the variance for every constant y_pred. -/
theorem mse_const_var_cex :
    npMean [[(1 : ℚ)], [-1]].flatten = 0 ∧
    mse [[(1 : ℚ)], [1]] [[(1 : ℚ)], [-1]] = 2 ∧
    npVar [[(1 : ℚ)], [-1]].flatten = 1 ∧
    mse [[(1 : ℚ)], [1]] [[(1 : ℚ)], [-1]] ≠ npVar [[(1 : ℚ)], [-1]].flatten := by
  refine ⟨?_, ?_, ?_, ?_⟩ <;> norm_num [mse, npMean, npVar]

/-- C5 witness: the amended statement evaluated at y = [[1],[−1]], c = 2. -/
theorem mse_self_and_const_witness :
    mse [[(1 : ℚ)], [-1]] [[(1 : ℚ)], [-1]] = 0 ∧
    mse ([[(1 : ℚ)], [-1]].map (fun r => r.map (fun _ => (2 : ℚ))))
        [[(1 : ℚ)], [-1]] = npVar [[(1 : ℚ)], [-1]].flatten + 2 ^ 2 :=
  mse_self_and_const [[(1 : ℚ)], [-1]] 2 (by decide) (by norm_num [npMean])

theorem bootstrap_length (h0 h1 : List ℚ) (f : List ℚ → List ℚ → ℚ) (B : ℕ)
    (rand : ℕ → ℕ → ℕ) : (bootstrap h0 h1 f B rand).length = B := by
  simp [bootstrap]

/-- C6: bootstrap pools h0 (length m) and h1 (length n) into one sequence of
length m+n; each of the B replicates evaluates f on the first-m/remaining-n
split of a size-(m+n) sample drawn with replacement from that pool; and the
returned sequence has length exactly B. -/
theorem bootstrap_pool_split (h0 h1 : List ℚ) (f : List ℚ → List ℚ → ℚ)
    (B : ℕ) (rand : ℕ → ℕ → ℕ) (hB : 1 ≤ B) :
    (h0 ++ h1).length = h0.length + h1.length ∧
    (bootstrap h0 h1 f B rand).length = B ∧
    ∀ b, b < B → ∃ s : List ℚ,
      s.length = h0.length + h1.length ∧
      (∀ e ∈ s, e ∈ h0 ++ h1) ∧
      (bootstrap h0 h1 f B rand).getD b 0
        = f (s.take h0.length) (s.drop h0.length) := by
  refine ⟨List.length_append _ _, bootstrap_length .., fun b hb => ?_⟩
  refine ⟨(List.range (h0.length + h1.length)).map
      (fun i => (h0 ++ h1).getD (rand b i % (h0.length + h1.length)) 0), by simp, ?_, ?_⟩
  · intro e he
    simp only [List.mem_map, List.mem_range] at he
    obtain ⟨i, hi, rfl⟩ := he
    have hN : 0 < h0.length + h1.length := by omega
    have hlt : rand b i % (h0.length + h1.length) < (h0 ++ h1).length := by
      simpa using Nat.mod_lt _ hN
    rw [List.getD_eq_getElem?_getD, List.getElem?_eq_getElem hlt]
    exact List.getElem_mem _
  · simp only [bootstrap]
    rw [List.getD_eq_getElem?_getD, List.getElem?_map]
    simp [List.getElem?_range, hb]

/-- C6 witness: the statement evaluated at h0 = [1], h1 = [2], the
min-difference statistic, one replicate, and the constant index stream. -/
theorem bootstrap_pool_split_witness :
    1 ≤ 1 ∧
    (([(1 : ℚ)] ++ [2]).length = [(1 : ℚ)].length + [(2 : ℚ)].length ∧
     (bootstrap [(1 : ℚ)] [2] (fun a b => npMin a - npMin b) 1 (fun _ _ => 0)).length = 1 ∧
     ∀ b, b < 1 → ∃ s : List ℚ,
       s.length = [(1 : ℚ)].length + [(2 : ℚ)].length ∧
       (∀ e ∈ s, e ∈ [(1 : ℚ)] ++ [2]) ∧
       (bootstrap [(1 : ℚ)] [2] (fun a b => npMin a - npMin b) 1 (fun _ _ => 0)).getD b 0
         = (fun a b => npMin a - npMin b) (s.take [(1 : ℚ)].length)
             (s.drop [(1 : ℚ)].length)) :=
  ⟨le_refl 1,
   bootstrap_pool_split [(1 : ℚ)] [2] (fun a b => npMin a - npMin b) 1 (fun _ _ => 0)
     (le_refl 1)⟩

theorem permuteBy_length (p : ℕ → ℕ) (l : List ℚ) :
    (permuteBy p l).length = l.length := by
  simp [permuteBy]

theorem permuteBy_getD (p : ℕ → ℕ) (l : List ℚ) (i : ℕ) (h : i < l.length) :
    (permuteBy p l).getD i 0 = l.getD (p i) 0 := by
  unfold permuteBy
  rw [List.getD_eq_getElem?_getD, List.getElem?_map]
  simp [List.getElem?_range, h, List.getD_eq_getElem?_getD]

theorem pool_perm_getD (h0 h1 : List ℚ) (p q : ℕ → ℕ)
    (hp : ∀ i, i < h0.length → p i < h0.length)
    (hq : ∀ j, j < h1.length → q j < h1.length) (k0 : ℕ) :
    (permuteBy p h0 ++ permuteBy q h1).getD (k0 % (h0.length + h1.length)) 0
      = (h0 ++ h1).getD
          ((if k0 % (h0.length + h1.length) < h0.length
            then p (k0 % (h0.length + h1.length))
            else h0.length + q (k0 % (h0.length + h1.length) - h0.length))
            % (h0.length + h1.length)) 0 := by
  rcases Nat.eq_zero_or_pos (h0.length + h1.length) with hN | hN
  · have h0nil : h0 = [] := List.length_eq_zero.mp (by omega)
    have h1nil : h1 = [] := List.length_eq_zero.mp (by omega)
    subst h0nil h1nil
    simp [permuteBy]
  · have hk : k0 % (h0.length + h1.length) < h0.length + h1.length := Nat.mod_lt _ hN
    by_cases hlt : k0 % (h0.length + h1.length) < h0.length
    · rw [if_pos hlt]
      have hpk : p (k0 % (h0.length + h1.length)) < h0.length := hp _ hlt
      rw [Nat.mod_eq_of_lt
        (show p (k0 % (h0.length + h1.length)) < h0.length + h1.length by omega)]
      rw [List.getD_append _ _ _ _ (by rw [permuteBy_length]; exact hlt)]
      rw [List.getD_append _ _ _ _ hpk]
      exact permuteBy_getD p h0 _ hlt
    · rw [if_neg hlt]
      have hsub : k0 % (h0.length + h1.length) - h0.length < h1.length := by omega
      have hqk : q (k0 % (h0.length + h1.length) - h0.length) < h1.length := hq _ hsub
      rw [Nat.mod_eq_of_lt
        (show h0.length + q (k0 % (h0.length + h1.length) - h0.length)
            < h0.length + h1.length by omega)]
      rw [List.getD_append_right _ _ _ _ (by rw [permuteBy_length]; omega)]
      rw [List.getD_append_right _ _ _ _ (by omega)]
      rw [permuteBy_length, Nat.add_sub_cancel_left]
      exact permuteBy_getD q h1 _ hsub

/-- C7 (amended): bootstrap is not literally invariant to permuting within h0
or h1 with the raw random index stream held fixed; it is invariant once the
index stream is composed with the same within-group index maps.  For any maps
p, q sending h0-positions to h0-positions and h1-positions to h1-positions
(in particular any within-group permutations), reordering h0 and h1 through
them and reindexing the random draws accordingly leaves the replicate
sequence unchanged — so under a uniform random index source the distribution
of the replicate sequence is invariant to reordering within each group. -/
theorem bootstrap_perm_reindex (h0 h1 : List ℚ) (f : List ℚ → List ℚ → ℚ)
    (B : ℕ) (rand : ℕ → ℕ → ℕ) (p q : ℕ → ℕ)
    (hp : ∀ i, i < h0.length → p i < h0.length)
    (hq : ∀ j, j < h1.length → q j < h1.length) :
    bootstrap (permuteBy p h0) (permuteBy q h1) f B rand
      = bootstrap h0 h1 f B (fun b i =>
          if rand b i % (h0.length + h1.length) < h0.length
          then p (rand b i % (h0.length + h1.length))
          else h0.length + q (rand b i % (h0.length + h1.length) - h0.length)) := by
  simp only [bootstrap, permuteBy_length]
  apply List.map_congr_left
  intro b _
  have hbd : (List.range (h0.length + h1.length)).map
        (fun i => (permuteBy p h0 ++ permuteBy q h1).getD
          (rand b i % (h0.length + h1.length)) 0)
      = (List.range (h0.length + h1.length)).map
        (fun i => (h0 ++ h1).getD
            ((if rand b i % (h0.length + h1.length) < h0.length
              then p (rand b i % (h0.length + h1.length))
              else h0.length + q (rand b i % (h0.length + h1.length) - h0.length))
              % (h0.length + h1.length)) 0) :=
    List.map_congr_left (fun i _ => pool_perm_getD h0 h1 p q hp hq (rand b i))
  rw [hbd]

/-- C7 counterexample: [5, 1] is a permutation of [1, 5], yet with all other
arguments and the random index source held fixed, bootstrap returns [4] on
the one and [−4] on the other (statistic min(a) − min(b), one replicate,
index draws 0, 0, 1), refuting literal invariance under within-h0 swaps. -/
theorem bootstrap_swap_cex :
    [(5 : ℚ), 1].Perm [(1 : ℚ), 5] ∧
    bootstrap [(5 : ℚ), 1] [3] (fun a b => npMin a - npMin b) 1 (fun _ i => i / 2)
      ≠ bootstrap [(1 : ℚ), 5] [3] (fun a b => npMin a - npMin b) 1 (fun _ i => i / 2) := by
  constructor
  · exact List.Perm.swap 1 5 []
  · have e1 : bootstrap [(5 : ℚ), 1] [3] (fun a b => npMin a - npMin b) 1
        (fun _ i => i / 2) = [4] := by
      norm_num [bootstrap, List.range_succ, npMin, min_def]
    have e2 : bootstrap [(1 : ℚ), 5] [3] (fun a b => npMin a - npMin b) 1
        (fun _ i => i / 2) = [-4] := by
      norm_num [bootstrap, List.range_succ, npMin, min_def]
    norm_num [e1, e2]

/-- C7 witness: the amended statement evaluated at h0 = [1, 5], h1 = [3],
with p the swap of the two h0 positions and q the identity. -/
theorem bootstrap_perm_reindex_witness :
    bootstrap (permuteBy (fun i => 1 - i) [(1 : ℚ), 5]) (permuteBy (fun j => j) [3])
        (fun a b => npMin a - npMin b) 1 (fun _ i => i / 2)
      = bootstrap [(1 : ℚ), 5] [3] (fun a b => npMin a - npMin b) 1
          (fun _ i => if (i / 2) % 3 < 2 then 1 - (i / 2) % 3
            else 2 + ((i / 2) % 3 - 2)) :=
  bootstrap_perm_reindex [(1 : ℚ), 5] [3] (fun a b => npMin a - npMin b) 1
    (fun _ i => i / 2) (fun i => 1 - i) (fun j => j) (by decide) (by decide)

theorem countP_div_mem_unit (l : List ℚ) (pr : ℚ → Bool) (hl : 0 < l.length) :
    0 ≤ (l.countP pr : ℚ) / l.length ∧ (l.countP pr : ℚ) / l.length ≤ 1 := by
  constructor
  · exact div_nonneg (Nat.cast_nonneg _) (Nat.cast_nonneg _)
  · rw [div_le_one (by exact_mod_cast hl)]
    exact_mod_cast List.countP_le_length _

/-- C8: each of the three p-value estimators returns a value in [0, 1].  The
two bootstrap-based estimators do so unconditionally; the ttest estimator
does so given scipy's documented contract that the two-sided ttest_1samp
p-value it consumes lies in [0, 1] (scipy is an external library, so its
p-value enters the embedding as the parameter ttest_p). -/
theorem pvalues_in_unit_interval (d0s d1s : List ℚ) (rand : ℕ → ℕ → ℕ)
    (ttest_p : List ℚ → ℚ)
    (htt : 0 ≤ ttest_p (zipDiv d0s d1s) ∧ ttest_p (zipDiv d0s d1s) ≤ 1) :
    (0 ≤ bootstrap_mindiv rand d0s d1s ∧ bootstrap_mindiv rand d0s d1s ≤ 1) ∧
    (0 ≤ bootstrap_mindiff rand d0s d1s ∧ bootstrap_mindiff rand d0s d1s ≤ 1) ∧
    (0 ≤ bootstrap_ttest ttest_p d0s d1s ∧ bootstrap_ttest ttest_p d0s d1s ≤ 1) := by
  refine ⟨?_, ?_, ?_⟩
  · have h := countP_div_mem_unit
      (bootstrap d0s d1s (fun x y => npMin x / npMin y) 10000 rand)
      (fun t => decide (npMin d0s / npMin d1s < t))
      (by rw [bootstrap_length]; norm_num)
    simpa [bootstrap_mindiv] using h
  · have h := countP_div_mem_unit
      (bootstrap d0s d1s (fun x y => npMin x - npMin y) 10000 rand)
      (fun t => decide (npMin d0s - npMin d1s < t))
      (by rw [bootstrap_length]; norm_num)
    simpa [bootstrap_mindiff] using h
  · obtain ⟨ht0, ht1⟩ := htt
    unfold bootstrap_ttest
    by_cases hc : 1 < npMean (zipDiv d0s d1s)
    · rw [if_pos hc]
      constructor <;> linarith
    · rw [if_neg hc]
      constructor <;> linarith

/-- C8 witness: the statement evaluated at d0s = d1s = [1], the constant
index stream, and a ttest p-value of 1/2. -/
theorem pvalues_in_unit_interval_witness :
    (0 ≤ bootstrap_mindiv (fun _ _ => 0) [(1 : ℚ)] [1] ∧
      bootstrap_mindiv (fun _ _ => 0) [(1 : ℚ)] [1] ≤ 1) ∧
    (0 ≤ bootstrap_mindiff (fun _ _ => 0) [(1 : ℚ)] [1] ∧
      bootstrap_mindiff (fun _ _ => 0) [(1 : ℚ)] [1] ≤ 1) ∧
    (0 ≤ bootstrap_ttest (fun _ => (1 : ℚ) / 2) [(1 : ℚ)] [1] ∧
      bootstrap_ttest (fun _ => (1 : ℚ) / 2) [(1 : ℚ)] [1] ≤ 1) :=
  pvalues_in_unit_interval [1] [1] (fun _ _ => 0) (fun _ => (1 : ℚ) / 2) (by norm_num)

theorem lookup_setKey_same (k : String) (v : PVal) (l : List (String × PVal)) :
    lookupKey k (setKey k v l) = some v := by
  induction l with
  | nil => simp [setKey, lookupKey]
  | cons hd tl ih =>
    obtain ⟨k', v'⟩ := hd
    by_cases h : k' = k
    · subst h
      simp [setKey, lookupKey]
    · simp [setKey, lookupKey, h, ih]

theorem lookup_setKey_other (k k' : String) (v : PVal) (l : List (String × PVal))
    (h : k' ≠ k) : lookupKey k (setKey k' v l) = lookupKey k l := by
  induction l with
  | nil => simp [setKey, lookupKey, h]
  | cons hd tl ih =>
    obtain ⟨k'', v''⟩ := hd
    by_cases h2 : k'' = k'
    · subst h2
      simp [setKey, lookupKey, h]
    · by_cases h3 : k'' = k
      · subst h3
        simp [setKey, lookupKey, h2]
      · simp [setKey, lookupKey, h2, h3, ih]

theorem trialsLoop_trace {P : Type} (fitF : P → List (List ℚ) → List (List ℚ) → P)
    (predF : P → List (List ℚ) → List (List ℚ)) (initStream : ℕ → P)
    (permStream : ℕ → List ℕ) (x z y : List (List ℚ)) (n_test : ℕ)
    (fixed_arch : Bool) (xz_dim y_dim : ℕ) :
    ∀ (l : List ℕ) (kw : List (String × PVal)),
      (trialsLoop fitF predF initStream permStream x z y n_test fixed_arch
          xz_dim y_dim l kw).1
        = l.map (fun pid => runTrial fitF predF (initStream (2 * pid))
            (initStream (2 * pid + 1)) x z y (permStream pid) n_test) := by
  intro l
  induction l with
  | nil => intro kw; rfl
  | cons pid rest ih =>
    intro kw
    simp only [trialsLoop, List.map_cons]
    rw [ih]

theorem testModel_trialsRun {P : Type} (fitF : P → List (List ℚ) → List (List ℚ) → P)
    (predF : P → List (List ℚ) → List (List ℚ)) (initStream : ℕ → P)
    (permStream : ℕ → List ℕ) (rand : ℕ → ℕ → ℕ) (ttest_p : List ℚ → ℚ)
    (x y z : List (List ℚ)) (num_perm : ℕ) (prop_test max_time : ℚ)
    (discrete : Bool × Bool) (test_type : String) (fixed_arch : Bool)
    (bootstrap_type : String) (kwargs : List (String × PVal)) :
    (testModel fitF predF initStream permStream rand ttest_p x y z num_perm
        prop_test max_time discrete test_type fixed_arch bootstrap_type
        kwargs).trialsRun = num_perm := by
  simp only [testModel, TestOutcome.trialsRun]
  rw [trialsLoop_trace]
  simp

theorem applyPerm_length (perm : List ℕ) (x : List (List ℚ)) :
    (applyPerm perm x).length = perm.length := by
  simp [applyPerm]

theorem applyPerm_getD (perm : List ℕ) (x : List (List ℚ)) (i : ℕ)
    (h : i < perm.length) :
    (applyPerm perm x).getD i [] = x.getD (perm.getD i 0) [] := by
  unfold applyPerm
  rw [List.getD_eq_getElem?_getD, List.getElem?_map, List.getElem?_eq_getElem h]
  rw [List.getD_eq_getElem?_getD (l := perm), List.getElem?_eq_getElem h]
  rfl

theorem hstack_getD (a b : List (List ℚ)) (i : ℕ) (ha : i < a.length)
    (hb : i < b.length) :
    (hstack a b).getD i [] = a.getD i [] ++ b.getD i [] := by
  unfold hstack
  have hab : i < (a.zipWith (· ++ ·) b).length := by
    rw [List.length_zipWith]
    omega
  rw [List.getD_eq_getElem?_getD, List.getElem?_eq_getElem hab]
  rw [List.getElem_zipWith]
  rw [List.getD_eq_getElem?_getD, List.getElem?_eq_getElem ha]
  rw [List.getD_eq_getElem?_getD, List.getElem?_eq_getElem hb]
  rfl

/-- C3 (amended): discreteness forces the role swap only when x is flagged
discrete and y is not — then the continuous y becomes the regression input.
In every other case, including the opposite hint (x continuous, y discrete),
the discreteness flags are ignored and the column rule decides: the variable
with strictly more columns becomes the regression input, x on ties. -/
theorem selectRoles_spec (d : Bool × Bool) (x y : List (List ℚ)) :
    (d = (true, false) → selectRoles d x y = (y, x)) ∧
    (d ≠ (true, false) →
      selectRoles d x y = if ncols x < ncols y then (y, x) else (x, y)) := by
  constructor
  · rintro rfl
    simp [selectRoles]
  · intro hd
    have hcond : (d.1 && !d.2) = false := by
      rcases d with ⟨a, b⟩
      cases a <;> cases b <;> simp_all
    simp [selectRoles, hcond]

/-- C3 counterexample: with discrete = (false, true) — x continuous, y
discrete — and y wider than x, test() makes the discrete y the regression
input instead of the continuous x, refuting the claimed "either direction"
behaviour. -/
theorem selectRoles_discrete_cex :
    selectRoles (false, true) [[(1 : ℚ)]] [[2, 3]] = ([[(2 : ℚ), 3]], [[(1 : ℚ)]]) ∧
    (selectRoles (false, true) [[(1 : ℚ)]] [[2, 3]]).1 ≠ [[(1 : ℚ)]] := by
  decide

/-- C3 witness: the amended statement evaluated at both a (true, false) hint
and an absent hint. -/
theorem selectRoles_spec_witness :
    selectRoles (true, false) [[(1 : ℚ)]] [[(2 : ℚ)]] = ([[(2 : ℚ)]], [[(1 : ℚ)]]) ∧
    selectRoles (false, false) [[(1 : ℚ)]] [[(2 : ℚ), 3]]
      = if ncols [[(1 : ℚ)]] < ncols [[(2 : ℚ), 3]]
        then ([[(2 : ℚ), 3]], [[(1 : ℚ)]]) else ([[(1 : ℚ)]], [[(2 : ℚ), 3]]) :=
  ⟨(selectRoles_spec (true, false) [[(1 : ℚ)]] [[(2 : ℚ)]]).1 rfl,
   (selectRoles_spec (false, false) [[(1 : ℚ)]] [[(2 : ℚ), 3]]).2 (by decide)⟩

/-- C9: in a trial of test(), the null-hypothesis dataset applies the drawn
row permutation to x only: row i of the shuffled input is row perm(i) of x
concatenated with the untouched row i of z, so z's pairing with y is intact;
and both the null and alternative statistics are the MSE of the respective
prediction against the same unpermuted first n_test rows of y. -/
theorem trial_permutes_x_only {P : Type} (fitF : P → List (List ℚ) → List (List ℚ) → P)
    (predF : P → List (List ℚ) → List (List ℚ)) (init0 init1 : P)
    (x z y : List (List ℚ)) (perm : List ℕ) (n_test : ℕ)
    (hperm : perm.length = x.length) (hz : z.length = x.length) :
    (runTrial fitF predF init0 init1 x z y perm n_test).x_z_bootstrap.length
        = x.length ∧
    (∀ i, i < x.length →
      (runTrial fitF predF init0 init1 x z y perm n_test).x_z_bootstrap.getD i []
        = x.getD (perm.getD i 0) [] ++ z.getD i []) ∧
    (runTrial fitF predF init0 init1 x z y perm n_test).d0_stat
      = mse (runTrial fitF predF init0 init1 x z y perm n_test).y_pred0
          (y.take n_test) ∧
    (runTrial fitF predF init0 init1 x z y perm n_test).d1_stat
      = mse (runTrial fitF predF init0 init1 x z y perm n_test).y_pred1
          (y.take n_test) := by
  have hxzb : (runTrial fitF predF init0 init1 x z y perm n_test).x_z_bootstrap
      = hstack (applyPerm perm x) z := rfl
  refine ⟨?_, ?_, rfl, rfl⟩
  · rw [hxzb]
    unfold hstack
    rw [List.length_zipWith, applyPerm_length, hperm, hz]
    omega
  · intro i hi
    rw [hxzb]
    rw [hstack_getD _ _ i (by rw [applyPerm_length]; omega) (by omega)]
    rw [applyPerm_getD _ _ _ (by omega)]

/-- C9 witness: the statement evaluated at a concrete two-row dataset with
the swap permutation. -/
theorem trial_permutes_x_only_witness :
    (runTrial (fun (p : ℕ) _ _ => p) (fun _ _ => [[0]]) 0 1 [[(1 : ℚ)], [2]]
        [[(3 : ℚ)], [4]] [[(5 : ℚ)], [6]] [1, 0] 1).x_z_bootstrap.length = 2 ∧
    (∀ i, i < ([[(1 : ℚ)], [2]] : List (List ℚ)).length →
      (runTrial (fun (p : ℕ) _ _ => p) (fun _ _ => [[0]]) 0 1 [[(1 : ℚ)], [2]]
          [[(3 : ℚ)], [4]] [[(5 : ℚ)], [6]] [1, 0] 1).x_z_bootstrap.getD i []
        = [[(1 : ℚ)], [2]].getD ([1, 0].getD i 0) [] ++ [[(3 : ℚ)], [4]].getD i []) ∧
    (runTrial (fun (p : ℕ) _ _ => p) (fun _ _ => [[0]]) 0 1 [[(1 : ℚ)], [2]]
        [[(3 : ℚ)], [4]] [[(5 : ℚ)], [6]] [1, 0] 1).d0_stat
      = mse (runTrial (fun (p : ℕ) _ _ => p) (fun _ _ => [[0]]) 0 1 [[(1 : ℚ)], [2]]
          [[(3 : ℚ)], [4]] [[(5 : ℚ)], [6]] [1, 0] 1).y_pred0
          ([[(5 : ℚ)], [6]].take 1) ∧
    (runTrial (fun (p : ℕ) _ _ => p) (fun _ _ => [[0]]) 0 1 [[(1 : ℚ)], [2]]
        [[(3 : ℚ)], [4]] [[(5 : ℚ)], [6]] [1, 0] 1).d1_stat
      = mse (runTrial (fun (p : ℕ) _ _ => p) (fun _ _ => [[0]]) 0 1 [[(1 : ℚ)], [2]]
          [[(3 : ℚ)], [4]] [[(5 : ℚ)], [6]] [1, 0] 1).y_pred1
          ([[(5 : ℚ)], [6]].take 1) :=
  trial_permutes_x_only (fun (p : ℕ) _ _ => p) (fun _ _ => [[0]]) 0 1
    [[(1 : ℚ)], [2]] [[(3 : ℚ)], [4]] [[(5 : ℚ)], [6]] [1, 0] 1
    (by decide) (by decide)

/-- C10: in every trial of test(), whatever the value of fixed_arch, the
alternative-hypothesis fit starts from exactly the same oracle parameter
state as the trial's null-hypothesis fit, namely the state drawn by that
trial's first initializer run, saved before the null fit and restored (over
the second initializer's draw) before the alternative fit. -/
theorem fits_share_initial_params {P : Type}
    (fitF : P → List (List ℚ) → List (List ℚ) → P)
    (predF : P → List (List ℚ) → List (List ℚ)) (initStream : ℕ → P)
    (permStream : ℕ → List ℕ) (rand : ℕ → ℕ → ℕ) (ttest_p : List ℚ → ℚ)
    (x y z : List (List ℚ)) (num_perm : ℕ) (prop_test max_time : ℚ)
    (discrete : Bool × Bool) (test_type : String) (fixed_arch : Bool)
    (bootstrap_type : String) (kwargs : List (String × PVal))
    (t : ℕ) (tr : TrialResult P)
    (htr : (testModel fitF predF initStream permStream rand ttest_p x y z num_perm
        prop_test max_time discrete test_type fixed_arch bootstrap_type
        kwargs).trace[t]? = some tr) :
    tr.fit1_start = tr.fit0_start ∧ tr.fit0_start = initStream (2 * t) := by
  simp only [testModel] at htr
  rw [trialsLoop_trace, List.getElem?_map] at htr
  rcases hrange : (List.range num_perm)[t]? with _ | pid
  · rw [hrange] at htr
    simp at htr
  · rw [hrange] at htr
    have hpid : pid = t := by
      have hmem := List.getElem?_mem hrange
      have : t < num_perm := by
        by_contra hge
        rw [List.getElem?_eq_none (by simpa using Nat.le_of_not_lt hge)] at hrange
        exact Option.noConfusion hrange
      rw [List.getElem?_range this] at hrange
      exact (Option.some_injective _ hrange.symm)
    subst hpid
    simp only [Option.map_some', Option.some.injEq] at htr
    subst htr
    exact ⟨rfl, rfl⟩

/-- C10 witness: the statement evaluated on a one-trial run of test() with a
concrete oracle, in non-fixed-architecture mode. -/
theorem fits_share_initial_params_witness :
    ((testModel (fun (p : ℕ) _ _ => p) (fun _ _ => [[0]]) (fun n => n)
        (fun _ => [0]) (fun _ _ => 0) (fun _ => 0) [[(1 : ℚ)]] [[(1 : ℚ)]]
        [[(1 : ℚ)]] 1 (1 / 2) 60 (false, false) "min" false "mindiv"
        []).trace.headD ⟨[], 0, 0, [], [], 0, 0⟩).fit1_start
      = ((testModel (fun (p : ℕ) _ _ => p) (fun _ _ => [[0]]) (fun n => n)
        (fun _ => [0]) (fun _ _ => 0) (fun _ => 0) [[(1 : ℚ)]] [[(1 : ℚ)]]
        [[(1 : ℚ)]] 1 (1 / 2) 60 (false, false) "min" false "mindiv"
        []).trace.headD ⟨[], 0, 0, [], [], 0, 0⟩).fit0_start ∧
    ((testModel (fun (p : ℕ) _ _ => p) (fun _ _ => [[0]]) (fun n => n)
        (fun _ => [0]) (fun _ _ => 0) (fun _ => 0) [[(1 : ℚ)]] [[(1 : ℚ)]]
        [[(1 : ℚ)]] 1 (1 / 2) 60 (false, false) "min" false "mindiv"
        []).trace.headD ⟨[], 0, 0, [], [], 0, 0⟩).fit0_start = 0 :=
  fits_share_initial_params (fun (p : ℕ) _ _ => p) (fun _ _ => [[0]]) (fun n => n)
    (fun _ => [0]) (fun _ _ => 0) (fun _ => 0) [[(1 : ℚ)]] [[(1 : ℚ)]]
    [[(1 : ℚ)]] 1 (1 / 2) 60 (false, false) "min" false "mindiv" [] 0
    ((testModel (fun (p : ℕ) _ _ => p) (fun _ _ => [[0]]) (fun n => n)
        (fun _ => [0]) (fun _ _ => 0) (fun _ => 0) [[(1 : ℚ)]] [[(1 : ℚ)]]
        [[(1 : ℚ)]] 1 (1 / 2) 60 (false, false) "min" false "mindiv"
        []).trace.headD ⟨[], 0, 0, [], [], 0, 0⟩) rfl

theorem bootstrap_mindiv_nonneg (rand : ℕ → ℕ → ℕ) (d0s d1s : List ℚ) :
    0 ≤ bootstrap_mindiv rand d0s d1s := by
  simp only [bootstrap_mindiv]
  exact div_nonneg (Nat.cast_nonneg _) (Nat.cast_nonneg _)

theorem bootstrap_mindiff_nonneg (rand : ℕ → ℕ → ℕ) (d0s d1s : List ℚ) :
    0 ≤ bootstrap_mindiff rand d0s d1s := by
  simp only [bootstrap_mindiff]
  exact div_nonneg (Nat.cast_nonneg _) (Nat.cast_nonneg _)

/-- C1: test() never enforces the max_time ceiling.  The outcome is identical
for any two max_time values, including an already-expired deadline; all
num_perm trials always run; and with the mindiv or mindiff estimator the
returned p-value is an ordinary nonnegative fraction, never the −1 timeout
sentinel.  This confirms the claim's second half (an unreachable deadline
lets all num_perm trials complete without the sentinel) and refutes its
first half (no early termination with −1 ever happens). -/
theorem test_ignores_max_time {P : Type}
    (fitF : P → List (List ℚ) → List (List ℚ) → P)
    (predF : P → List (List ℚ) → List (List ℚ)) (initStream : ℕ → P)
    (permStream : ℕ → List ℕ) (rand : ℕ → ℕ → ℕ) (ttest_p : List ℚ → ℚ)
    (x y z : List (List ℚ)) (num_perm : ℕ) (prop_test mt mt' : ℚ)
    (discrete : Bool × Bool) (test_type : String) (fixed_arch : Bool)
    (bootstrap_type : String) (kwargs : List (String × PVal))
    (hbt : bootstrap_type = "mindiv" ∨ bootstrap_type = "mindiff") :
    (testModel fitF predF initStream permStream rand ttest_p x y z num_perm
        prop_test mt discrete test_type fixed_arch bootstrap_type
        kwargs).trialsRun = num_perm ∧
    testModel fitF predF initStream permStream rand ttest_p x y z num_perm
        prop_test mt discrete test_type fixed_arch bootstrap_type kwargs
      = testModel fitF predF initStream permStream rand ttest_p x y z num_perm
        prop_test mt' discrete test_type fixed_arch bootstrap_type kwargs ∧
    ∃ p, (testModel fitF predF initStream permStream rand ttest_p x y z num_perm
        prop_test mt discrete test_type fixed_arch bootstrap_type
        kwargs).result = some p ∧ 0 ≤ p ∧ p ≠ -1 := by
  refine ⟨testModel_trialsRun .., rfl, ?_⟩
  rcases hbt with h | h
  · subst h
    refine ⟨bootstrap_mindiv rand
      (testModel fitF predF initStream permStream rand ttest_p x y z num_perm
        prop_test mt discrete test_type fixed_arch "mindiv" kwargs).d0_stats
      (testModel fitF predF initStream permStream rand ttest_p x y z num_perm
        prop_test mt discrete test_type fixed_arch "mindiv" kwargs).d1_stats,
      rfl, bootstrap_mindiv_nonneg .., ?_⟩
    intro hme
    have hnn := bootstrap_mindiv_nonneg rand
      (testModel fitF predF initStream permStream rand ttest_p x y z num_perm
        prop_test mt discrete test_type fixed_arch "mindiv" kwargs).d0_stats
      (testModel fitF predF initStream permStream rand ttest_p x y z num_perm
        prop_test mt discrete test_type fixed_arch "mindiv" kwargs).d1_stats
    rw [hme] at hnn
    norm_num at hnn
  · subst h
    refine ⟨bootstrap_mindiff rand
      (testModel fitF predF initStream permStream rand ttest_p x y z num_perm
        prop_test mt discrete test_type fixed_arch "mindiff" kwargs).d0_stats
      (testModel fitF predF initStream permStream rand ttest_p x y z num_perm
        prop_test mt discrete test_type fixed_arch "mindiff" kwargs).d1_stats,
      rfl, bootstrap_mindiff_nonneg .., ?_⟩
    intro hme
    have hnn := bootstrap_mindiff_nonneg rand
      (testModel fitF predF initStream permStream rand ttest_p x y z num_perm
        prop_test mt discrete test_type fixed_arch "mindiff" kwargs).d0_stats
      (testModel fitF predF initStream permStream rand ttest_p x y z num_perm
        prop_test mt discrete test_type fixed_arch "mindiff" kwargs).d1_stats
    rw [hme] at hnn
    norm_num at hnn

/-- C1 witness: the statement evaluated on a one-trial run with an
already-expired deadline (max_time = 0) against max_time = 60. -/
theorem test_ignores_max_time_witness :
    (testModel (fun (p : ℕ) _ _ => p) (fun _ _ => [[0]]) (fun n => n)
        (fun _ => [0]) (fun _ _ => 0) (fun _ => 0) [[(1 : ℚ)]] [[(1 : ℚ)]]
        [[(1 : ℚ)]] 1 (1 / 2) 0 (false, false) "min" false "mindiv"
        []).trialsRun = 1 ∧
    testModel (fun (p : ℕ) _ _ => p) (fun _ _ => [[0]]) (fun n => n)
        (fun _ => [0]) (fun _ _ => 0) (fun _ => 0) [[(1 : ℚ)]] [[(1 : ℚ)]]
        [[(1 : ℚ)]] 1 (1 / 2) 0 (false, false) "min" false "mindiv" []
      = testModel (fun (p : ℕ) _ _ => p) (fun _ _ => [[0]]) (fun n => n)
        (fun _ => [0]) (fun _ _ => 0) (fun _ => 0) [[(1 : ℚ)]] [[(1 : ℚ)]]
        [[(1 : ℚ)]] 1 (1 / 2) 60 (false, false) "min" false "mindiv" [] ∧
    ∃ p, (testModel (fun (p : ℕ) _ _ => p) (fun _ _ => [[0]]) (fun n => n)
        (fun _ => [0]) (fun _ _ => 0) (fun _ => 0) [[(1 : ℚ)]] [[(1 : ℚ)]]
        [[(1 : ℚ)]] 1 (1 / 2) 0 (false, false) "min" false "mindiv"
        []).result = some p ∧ 0 ≤ p ∧ p ≠ -1 :=
  test_ignores_max_time (fun (p : ℕ) _ _ => p) (fun _ _ => [[0]]) (fun n => n)
    (fun _ => [0]) (fun _ _ => 0) (fun _ => 0) [[(1 : ℚ)]] [[(1 : ℚ)]]
    [[(1 : ℚ)]] 1 (1 / 2) 0 60 (false, false) "min" false "mindiv" []
    (Or.inl rfl)

/-- C2 (amended): an unknown bootstrap_type does make test() fail with a
failed estimator lookup (no p-value is produced), but only after all
num_perm trials have run, not before any trial; and test_type is never
consulted, so an unknown test_type never causes a failure at all. -/
theorem unknown_bootstrap_fails_after_trials {P : Type}
    (fitF : P → List (List ℚ) → List (List ℚ) → P)
    (predF : P → List (List ℚ) → List (List ℚ)) (initStream : ℕ → P)
    (permStream : ℕ → List ℕ) (rand : ℕ → ℕ → ℕ) (ttest_p : List ℚ → ℚ)
    (x y z : List (List ℚ)) (num_perm : ℕ) (prop_test max_time : ℚ)
    (discrete : Bool × Bool) (test_type : String) (fixed_arch : Bool)
    (bootstrap_type : String) (kwargs : List (String × PVal))
    (hbt : bootstrap_type ∉ (["mindiv", "mindiff", "ttest"] : List String)) :
    (testModel fitF predF initStream permStream rand ttest_p x y z num_perm
        prop_test max_time discrete test_type fixed_arch bootstrap_type
        kwargs).result = none ∧
    (testModel fitF predF initStream permStream rand ttest_p x y z num_perm
        prop_test max_time discrete test_type fixed_arch bootstrap_type
        kwargs).trialsRun = num_perm ∧
    ∀ tt1 tt2 : String,
      testModel fitF predF initStream permStream rand ttest_p x y z num_perm
          prop_test max_time discrete tt1 fixed_arch bootstrap_type kwargs
        = testModel fitF predF initStream permStream rand ttest_p x y z num_perm
          prop_test max_time discrete tt2 fixed_arch bootstrap_type kwargs := by
  have h1 : bootstrap_type ≠ "mindiv" := by intro h; exact hbt (by simp [h])
  have h2 : bootstrap_type ≠ "mindiff" := by intro h; exact hbt (by simp [h])
  have h3 : bootstrap_type ≠ "ttest" := by intro h; exact hbt (by simp [h])
  refine ⟨?_, testModel_trialsRun .., fun tt1 tt2 => rfl⟩
  simp [testModel, h1, h2, h3]

/-- C2 counterexample: with bootstrap_type = "unknown" and num_perm = 2, both
trials run and two oracle constructor calls happen before the estimator
lookup fails (result none) — refuting "fails before any trial runs, before
any oracle is constructed or trained". -/
theorem unknown_bootstrap_cex :
    (testModel (fun (p : ℕ) _ _ => p) (fun _ _ => [[0]]) (fun n => n)
        (fun _ => [0]) (fun _ _ => 0) (fun _ => 0) [[(1 : ℚ)]] [[(1 : ℚ)]]
        [[(1 : ℚ)]] 2 (1 / 2) 60 (false, false) "min" false "unknown"
        []).trialsRun = 2 ∧
    (testModel (fun (p : ℕ) _ _ => p) (fun _ _ => [[0]]) (fun n => n)
        (fun _ => [0]) (fun _ _ => 0) (fun _ => 0) [[(1 : ℚ)]] [[(1 : ℚ)]]
        [[(1 : ℚ)]] 2 (1 / 2) 60 (false, false) "min" false "unknown"
        []).ctorCalls.length = 2 ∧
    (testModel (fun (p : ℕ) _ _ => p) (fun _ _ => [[0]]) (fun n => n)
        (fun _ => [0]) (fun _ _ => 0) (fun _ => 0) [[(1 : ℚ)]] [[(1 : ℚ)]]
        [[(1 : ℚ)]] 2 (1 / 2) 60 (false, false) "min" false "unknown"
        []).result = none :=
  ⟨rfl, rfl, rfl⟩

/-- C2 witness: the amended statement evaluated on a one-trial run with
bootstrap_type = "unknown". -/
theorem unknown_bootstrap_witness :
    (testModel (fun (p : ℕ) _ _ => p) (fun _ _ => [[0]]) (fun n => n)
        (fun _ => [0]) (fun _ _ => 0) (fun _ => 0) [[(1 : ℚ)]] [[(1 : ℚ)]]
        [[(1 : ℚ)]] 1 (1 / 2) 60 (false, false) "min" false "unknown"
        []).result = none ∧
    (testModel (fun (p : ℕ) _ _ => p) (fun _ _ => [[0]]) (fun n => n)
        (fun _ => [0]) (fun _ _ => 0) (fun _ => 0) [[(1 : ℚ)]] [[(1 : ℚ)]]
        [[(1 : ℚ)]] 1 (1 / 2) 60 (false, false) "min" false "unknown"
        []).trialsRun = 1 :=
  ⟨(unknown_bootstrap_fails_after_trials (fun (p : ℕ) _ _ => p) (fun _ _ => [[0]])
      (fun n => n) (fun _ => [0]) (fun _ _ => 0) (fun _ => 0) [[(1 : ℚ)]]
      [[(1 : ℚ)]] [[(1 : ℚ)]] 1 (1 / 2) 60 (false, false) "min" false "unknown"
      [] (by decide)).1,
   (unknown_bootstrap_fails_after_trials (fun (p : ℕ) _ _ => p) (fun _ _ => [[0]])
      (fun n => n) (fun _ => [0]) (fun _ _ => 0) (fun _ => 0) [[(1 : ℚ)]]
      [[(1 : ℚ)]] [[(1 : ℚ)]] 1 (1 / 2) 60 (false, false) "min" false "unknown"
      [] (by decide)).2.1⟩

theorem trialsLoop_ctors_fixed {P : Type}
    {fitF : P → List (List ℚ) → List (List ℚ) → P}
    {predF : P → List (List ℚ) → List (List ℚ)} {initStream : ℕ → P}
    {permStream : ℕ → List ℕ} {x z y : List (List ℚ)} {n_test : ℕ}
    {xz_dim y_dim : ℕ} :
    ∀ (l : List ℕ) (kw : List (String × PVal)),
      (trialsLoop fitF predF initStream permStream x z y n_test true
        xz_dim y_dim l kw).2.1 = [] := by
  intro l
  induction l with
  | nil => intro kw; rfl
  | cons pid rest ih =>
    intro kw
    simp [trialsLoop, ih]

theorem trialsLoop_ctors_lookup {P : Type}
    {fitF : P → List (List ℚ) → List (List ℚ) → P}
    {predF : P → List (List ℚ) → List (List ℚ)} {initStream : ℕ → P}
    {permStream : ℕ → List ℕ} {x z y : List (List ℚ)} {n_test : ℕ}
    {xz_dim y_dim : ℕ} :
    ∀ (l : List ℕ) (kw : List (String × PVal)),
      ∀ a ∈ (trialsLoop fitF predF initStream permStream x z y n_test false
          xz_dim y_dim l kw).2.1,
        a.x_dim = xz_dim ∧ a.y_dim = y_dim ∧
        (∀ k, k ≠ "arch" → lookupKey k a.kwargs = lookupKey k kw) ∧
        ∃ pid ∈ l, lookupKey "arch" a.kwargs
            = some (PVal.natList (List.replicate (pid + 1) 32)) := by
  intro l
  induction l with
  | nil =>
    intro kw a ha
    simp [trialsLoop] at ha
  | cons pid rest ih =>
    intro kw a ha
    simp only [trialsLoop, Bool.false_eq_true, if_false, List.singleton_append,
      List.mem_cons] at ha
    rcases ha with rfl | ha
    · refine ⟨rfl, rfl, ?_, pid, List.mem_cons_self .., lookup_setKey_same ..⟩
      intro k hk
      exact lookup_setKey_other _ _ _ _ (Ne.symm hk)
    · obtain ⟨hx, hy, hother, pid', hpid', harch⟩ := ih _ a ha
      refine ⟨hx, hy, ?_, pid', List.mem_cons_of_mem _ hpid', harch⟩
      intro k hk
      rw [hother k hk]
      exact lookup_setKey_other _ _ _ _ (Ne.symm hk)

/-- C4 (amended): the caller's keyword-argument bag is not passed through
opaquely.  When fixed_arch is false, every oracle constructor call receives
the bag with epochs, lr, nn_verbose, batch_size and ntype overwritten to the
fixed values 1000, 1/100, true, 128 and "plain", and arch overwritten to
[32]*(t+1) for the trial index t; only keys outside these six reach the
oracle with the caller's value.  When fixed_arch is true, the constructor
receives none of the caller's keyword arguments at all, only the explicit
arch = [128, 128] and ntype = "plain". -/
theorem kwargs_overridden_not_opaque {P : Type}
    (fitF : P → List (List ℚ) → List (List ℚ) → P)
    (predF : P → List (List ℚ) → List (List ℚ)) (initStream : ℕ → P)
    (permStream : ℕ → List ℕ) (rand : ℕ → ℕ → ℕ) (ttest_p : List ℚ → ℚ)
    (x y z : List (List ℚ)) (num_perm : ℕ) (prop_test max_time : ℚ)
    (discrete : Bool × Bool) (test_type : String)
    (bootstrap_type : String) (kwargs : List (String × PVal)) :
    (∀ a ∈ (testModel fitF predF initStream permStream rand ttest_p x y z
        num_perm prop_test max_time discrete test_type false bootstrap_type
        kwargs).ctorCalls,
      lookupKey "epochs" a.kwargs = some (PVal.nat 1000) ∧
      lookupKey "lr" a.kwargs = some (PVal.rat (1 / 100)) ∧
      lookupKey "nn_verbose" a.kwargs = some (PVal.bool true) ∧
      lookupKey "batch_size" a.kwargs = some (PVal.nat 128) ∧
      lookupKey "ntype" a.kwargs = some (PVal.str "plain") ∧
      (∃ pid ∈ List.range num_perm, lookupKey "arch" a.kwargs
          = some (PVal.natList (List.replicate (pid + 1) 32))) ∧
      ∀ k, k ∉ (["epochs", "lr", "nn_verbose", "batch_size", "ntype",
          "arch"] : List String) →
        lookupKey k a.kwargs = lookupKey k kwargs) ∧
    ∀ a ∈ (testModel fitF predF initStream permStream rand ttest_p x y z
        num_perm prop_test max_time discrete test_type true bootstrap_type
        kwargs).ctorCalls,
      a.kwargs = [("arch", PVal.natList (List.replicate 2 128)),
                  ("ntype", PVal.str "plain")] := by
  constructor
  · intro a ha
    simp only [testModel, Bool.false_eq_true, if_false, List.nil_append] at ha
    obtain ⟨hx, hy, hother, pid, hpid, harch⟩ := trialsLoop_ctors_lookup _ _ a ha
    refine ⟨?_, ?_, ?_, ?_, ?_, ⟨pid, hpid, harch⟩, ?_⟩
    · rw [hother "epochs" (by decide), lookup_setKey_other _ _ _ _ (by decide),
        lookup_setKey_other _ _ _ _ (by decide),
        lookup_setKey_other _ _ _ _ (by decide),
        lookup_setKey_other _ _ _ _ (by decide), lookup_setKey_same]
    · rw [hother "lr" (by decide), lookup_setKey_other _ _ _ _ (by decide),
        lookup_setKey_other _ _ _ _ (by decide),
        lookup_setKey_other _ _ _ _ (by decide), lookup_setKey_same]
    · rw [hother "nn_verbose" (by decide), lookup_setKey_other _ _ _ _ (by decide),
        lookup_setKey_other _ _ _ _ (by decide), lookup_setKey_same]
    · rw [hother "batch_size" (by decide),
        lookup_setKey_other _ _ _ _ (by decide), lookup_setKey_same]
    · rw [hother "ntype" (by decide), lookup_setKey_same]
    · intro k hk
      simp only [List.mem_cons, List.not_mem_nil, or_false, not_or] at hk
      obtain ⟨hk1, hk2, hk3, hk4, hk5, hk6⟩ := hk
      rw [hother k hk6, lookup_setKey_other _ _ _ _ (Ne.symm hk5),
        lookup_setKey_other _ _ _ _ (Ne.symm hk4),
        lookup_setKey_other _ _ _ _ (Ne.symm hk3),
        lookup_setKey_other _ _ _ _ (Ne.symm hk2),
        lookup_setKey_other _ _ _ _ (Ne.symm hk1)]
  · intro a ha
    simp only [testModel, if_true, trialsLoop_ctors_fixed, List.append_nil,
      List.mem_singleton] at ha
    rw [ha]

/-- C4 counterexample: a caller passing epochs = 5 does not reach the oracle
with that value — the first constructor call of a non-fixed-architecture run
receives epochs = 1000 instead, refuting opaque (unchanged) pass-through. -/
theorem kwargs_epochs_cex :
    lookupKey "epochs"
        (((testModel (fun (p : ℕ) _ _ => p) (fun _ _ => [[0]]) (fun n => n)
            (fun _ => [0]) (fun _ _ => 0) (fun _ => 0) [[(1 : ℚ)]] [[(1 : ℚ)]]
            [[(1 : ℚ)]] 1 (1 / 2) 60 (false, false) "min" false "mindiv"
            [("epochs", PVal.nat 5)]).ctorCalls.headD ⟨0, 0, []⟩).kwargs)
      = some (PVal.nat 1000) ∧
    lookupKey "epochs" [("epochs", PVal.nat 5)] = some (PVal.nat 5) ∧
    PVal.nat 1000 ≠ PVal.nat 5 :=
  ⟨rfl, rfl, by decide⟩

end CondMixnn
